import Mathlib

/-!
Verification of the scoring pipeline in `api/registry/tasks.py`
(`score_passport`, `load_passport_record`, `process_deduplication`,
`validate_and_save_stamps`, `remove_existing_stamps_from_db`,
`calculate_score`).

The Django ORM state is embedded as an explicit `DB` value holding the
passport, stamp, score and community tables; each ORM call in the source
becomes a pure function from `DB` to `DB`.  Python exceptions are embedded
with `Except PyExc`, threading the database state through so that writes
performed before a raise persist, exactly as in the source.  External
collaborators (credential verifier, issuer verifier, passport reader,
scorer, deduplication strategy modules, clocks) are supplied by an `Env`
record, mirroring the imports at the top of the source file.
-/

set_option maxRecDepth 10000

/-- A naive Python `datetime` as produced by `datetime.strptime` /
`datetime.now()`: comparison of naive datetimes in Python is
lexicographic on (year, month, day, hour, minute, second, microsecond). -/
structure PyDateTime where
  year : Nat
  month : Nat
  day : Nat
  hour : Nat
  minute : Nat
  second : Nat
  microsecond : Nat
deriving DecidableEq, Repr

/-- Python `<` on naive datetimes: lexicographic field comparison. -/
def PyDateTime.lt (a b : PyDateTime) : Bool :=
  (a.year < b.year) ||
  (a.year == b.year && ((a.month < b.month) ||
    (a.month == b.month && ((a.day < b.day) ||
      (a.day == b.day && ((a.hour < b.hour) ||
        (a.hour == b.hour && ((a.minute < b.minute) ||
          (a.minute == b.minute && ((a.second < b.second) ||
            (a.second == b.second && a.microsecond < b.microsecond)))))))))))

/-- The Python exceptions that can cross function boundaries in
`tasks.py`: `ValueError` from `datetime.strptime`, the domain
`NoPassportException`, other `APIException`s from the validation layer,
and generic `Exception`s (including `Exception("Invalid rule")`,
`DoesNotExist`, `IndexError`). -/
inductive PyExc where
  | valueError (msg : String)
  | noPassportException
  | apiException (detail : String)
  | genericException (msg : String)
deriving DecidableEq, Repr

/-- Whether the exception is caught by the `except APIException` clause of
`score_passport`.  Modelled from the spec: `NoPassportException`
(`registry.exceptions`, not under `src/`) is the no-data condition, a
validation-layer exception carrying a structured detail message. -/
def PyExc.isAPIException : PyExc → Bool
  | .apiException _ => true
  | .noPassportException => true
  | _ => false

/-- The structured `.detail` payload of an `APIException`.  Modelled from
the spec: the detail of `NoPassportException` is its fixed no-data
message. -/
def PyExc.detail : PyExc → String
  | .apiException d => d
  | .noPassportException => "No Passport found for this address."
  | .valueError m => m
  | .genericException m => m

/-- Python `str(e)`. -/
def PyExc.toStr : PyExc → String
  | .apiException d => d
  | .noPassportException => "No Passport found for this address."
  | .valueError m => m
  | .genericException m => m

/-- The error text persisted by `score_passport`'s two exception handlers:
`e.detail` when the `except APIException` clause catches, `str(e)` when
the `except Exception` clause catches. -/
def PyExc.errorText (e : PyExc) : String :=
  if e.isAPIException then e.detail else e.toStr

/-- A raw credential as found in `stamp["credential"]`: its
`expirationDate` string, its `credentialSubject.hash`, and the rest of
the payload kept opaque. -/
structure Credential where
  expirationDate : String
  hash : String
  body : String
deriving DecidableEq, Repr

/-- One entry of `passport_data["stamps"]`: a provider name and a raw
credential. -/
structure StampData where
  provider : String
  credential : Credential
deriving DecidableEq, Repr

/-- The dict returned by `get_passport` (truthy case). -/
structure PassportData where
  stamps : List StampData
deriving DecidableEq, Repr

/-- A row of the `Passport` table: primary key, community foreign key,
lower-cased address, and the tri-state `requires_calculation` flag
(`none` embeds SQL NULL). -/
structure PassportRow where
  pk : Nat
  communityId : Nat
  address : String
  requiresCalculation : Option Bool
deriving DecidableEq, Repr

/-- A row of the `Stamp` table, keyed by (hash, passport). -/
structure StampRow where
  hash : String
  passportPk : Nat
  provider : String
  credential : Credential
deriving DecidableEq, Repr

/-- `Score.Status`. -/
inductive ScoreStatus where
  | PROCESSING
  | DONE
  | ERROR
deriving DecidableEq, Repr

/-- A row of the `Score` table (one-to-one with `Passport`). -/
structure ScoreRow where
  passportPk : Nat
  score : Option Int
  status : ScoreStatus
  lastScoreTimestamp : Option Nat
  evidence : Option String
  error : Option String
deriving DecidableEq, Repr

/-- A row of the `Community` table; `rule` is the deduplication rule
string ("FIFO" / "LIFO" / anything else). -/
structure CommunityRow where
  id : Nat
  rule : String
deriving DecidableEq, Repr

/-- The persistent store shared by all workers: the four tables plus a
fresh primary-key counter for passport creation. -/
structure DB where
  passports : List PassportRow
  stamps : List StampRow
  scores : List ScoreRow
  communities : List CommunityRow
  nextPk : Nat
deriving DecidableEq, Repr

/-- One score result returned by `scorer.compute_score`: a numeric score
and a list of evidence entries (held opaque as strings). -/
structure ScoreData where
  score : Int
  evidence : List String
deriving DecidableEq, Repr

/-- The external collaborators of the pipeline, exactly the imports used
by `tasks.py`: `get_passport`, `get_did`, `validate_credential`,
`verify_issuer`, the `fifo`/`lifo` strategy modules, the community's
scorer, and the two clocks (`datetime.now()` and `get_utc_time`).
The strategy functions are modelled from the spec (their modules are not
under `src/`): each maps (community, passport data, address) to the
deduplicated data together with the affected passports, other passports
whose credential set changed. -/
structure Env where
  getPassport : String → Option PassportData
  getDid : String → String
  validateCredential : String → Credential → List String
  verifyIssuer : StampData → Bool
  fifo : CommunityRow → PassportData → String → PassportData × List PassportRow
  lifo : CommunityRow → PassportData → String → PassportData × List PassportRow
  computeScore : Nat → Except PyExc (List ScoreData)
  nowLocal : PyDateTime
  nowUtc : Nat

/-! ## Timestamp parsing (`datetime.strptime`, two formats)

`validate_and_save_stamps` parses `expirationDate` with
`"%Y-%m-%dT%H:%M:%S.%fZ"` and, if that raises `ValueError`, with
`"%Y-%m-%dT%H:%M:%SZ"`; a failure of the second attempt is not caught.
The grammar below follows CPython's `_strptime` regexes for the
directives appearing in these two formats, plus the range checks of the
`datetime` constructor. -/

/-- Parse exactly `k` digits (CPython `%Y` is exactly four digits). -/
def parseDigitsAux : Nat → Nat → List Char → Option (Nat × List Char)
  | 0, acc, cs => some (acc, cs)
  | k + 1, acc, c :: cs =>
      if c.isDigit then parseDigitsAux k (acc * 10 + (c.toNat - 48)) cs else none
  | _ + 1, _, [] => none

/-- Parse a one-digit numeric directive whose single-digit value must lie
in [lo1, hi1]. -/
def parseField1 (lo1 hi1 : Nat) : List Char → Option (Nat × List Char)
  | c :: rest =>
      if c.isDigit && lo1 ≤ c.toNat - 48 && c.toNat - 48 ≤ hi1 then
        some (c.toNat - 48, rest)
      else none
  | [] => none

/-- Parse a numeric directive that accepts a two-digit form with value in
[lo2, hi2] or a one-digit form with value in [lo1, hi1], preferring the
two-digit form, as the CPython `_strptime` regexes for `%m`, `%d`, `%H`,
`%M`, `%S` do. -/
def parseField (lo2 hi2 lo1 hi1 : Nat) (cs : List Char) : Option (Nat × List Char) :=
  match cs with
  | c1 :: c2 :: rest =>
      if c1.isDigit && c2.isDigit then
        let v := (c1.toNat - 48) * 10 + (c2.toNat - 48)
        if lo2 ≤ v && v ≤ hi2 then some (v, rest) else parseField1 lo1 hi1 cs
      else parseField1 lo1 hi1 cs
  | _ => parseField1 lo1 hi1 cs

/-- Require the literal character `c`. -/
def expectChar (c : Char) : List Char → Option (List Char)
  | d :: rest => if d == c then some rest else none
  | [] => none

/-- Split off the maximal run of leading digits. -/
def takeDigits : List Char → List Char × List Char
  | [] => ([], [])
  | c :: cs =>
      if c.isDigit then
        let (ds, r) := takeDigits cs
        (c :: ds, r)
      else ([], c :: cs)

/-- Digit string to number. -/
def digitsToNat (ds : List Char) : Nat :=
  ds.foldl (fun a c => a * 10 + (c.toNat - 48)) 0

/-- CPython `%f`: one to six digits, right-padded with zeros to a
microsecond count. -/
def parseMicro (cs : List Char) : Option (Nat × List Char) :=
  let (ds, rest) := takeDigits cs
  if ds.length == 0 || 6 < ds.length then none
  else some (digitsToNat ds * 10 ^ (6 - ds.length), rest)

/-- Leap-year rule used by `datetime`. -/
def isLeapYear (y : Nat) : Bool :=
  y % 4 == 0 && (y % 100 != 0 || y % 400 == 0)

/-- Days in a month, as validated by the `datetime` constructor. -/
def daysInMonth (y m : Nat) : Nat :=
  if m == 2 then (if isLeapYear y then 29 else 28)
  else if m == 4 || m == 6 || m == 9 || m == 11 then 30
  else 31

/-- The `datetime` constructor's range checks (`MINYEAR = 1`,
`0 <= second <= 59`, day within the month); violating them raises
`ValueError`, which the caller treats like a parse failure. -/
def mkDateTime (y mo d h mi s us : Nat) : Option PyDateTime :=
  if 1 ≤ y && 1 ≤ d && d ≤ daysInMonth y mo && s ≤ 59 then
    some ⟨y, mo, d, h, mi, s, us⟩
  else none

/-- `datetime.strptime(s, "%Y-%m-%dT%H:%M:%S[.%f]Z")`, returning `none`
where Python raises `ValueError`.  The whole input must be consumed. -/
def strptimeISO (withFrac : Bool) (s : String) : Option PyDateTime := do
  let cs := s.toList
  let (y, cs) ← parseDigitsAux 4 0 cs
  let cs ← expectChar '-' cs
  let (mo, cs) ← parseField 1 12 1 9 cs
  let cs ← expectChar '-' cs
  let (d, cs) ← parseField 1 31 1 9 cs
  let cs ← expectChar 'T' cs
  let (h, cs) ← parseField 0 23 0 9 cs
  let cs ← expectChar ':' cs
  let (mi, cs) ← parseField 0 59 0 9 cs
  let cs ← expectChar ':' cs
  let (sec, cs) ← parseField 0 61 0 9 cs
  let (us, cs) ←
    if withFrac then do
      let cs ← expectChar '.' cs
      parseMicro cs
    else
      pure (0, cs)
  let cs ← expectChar 'Z' cs
  if cs.isEmpty then mkDateTime y mo d h mi sec us else none

/-- The expiration parsing of `validate_and_save_stamps`: the fractional
format is tried inside `try`, its `ValueError` is caught, and the second
format is tried outside any handler, so its `ValueError` propagates. -/
def parse_expiration_date (s : String) : Except PyExc PyDateTime :=
  match strptimeISO true s with
  | some d => .ok d
  | none =>
      match strptimeISO false s with
      | some d => .ok d
      | none =>
          .error (.valueError ("time data " ++ s ++
            " does not match format %Y-%m-%dT%H:%M:%SZ"))

/-! ## ORM primitives -/

/-- Python `address.lower()`: ASCII lowercasing, written over the char
list so that it is kernel-executable. -/
def pyLower (s : String) : String := ⟨s.data.map Char.toLower⟩

/-- The row filter `address=address.lower(), community_id=community_id`
used throughout `tasks.py`. -/
def keyMatch (cid : Nat) (addr : String) (p : PassportRow) : Bool :=
  p.address == pyLower addr && p.communityId == cid

/-- `requires_calculation` is not explicitly `False` ("needs work"). -/
def needsWorkRow (p : PassportRow) : Bool :=
  p.requiresCalculation != some false

/-- `update_or_create` on a list-embedded table: replace the first row
satisfying `key` using `upd`, or append `new` when no row matches. -/
def upsertWith {α : Type} (key : α → Bool) (upd : α → α) (new : α) : List α → List α
  | [] => [new]
  | x :: xs => if key x then upd x :: xs else x :: upsertWith key upd new xs

/-- `Stamp.objects.update_or_create(hash=..., passport=..., defaults=
{"provider": ..., "credential": ...})`. -/
def upsertStamp (h : String) (pk : Nat) (provider : String) (credential : Credential)
    (db : DB) : DB :=
  { db with stamps := (upsertWith (fun s => s.hash == h && s.passportPk == pk) (fun s => { s with provider := provider, credential := credential }) ⟨h, pk, provider, credential⟩ db.stamps) }

/-- `Score.objects.update_or_create(passport_id=pk, defaults=...)` with
every field given in `defaults` (used by `calculate_score` and by the two
exception handlers of `score_passport`). -/
def upsertScoreFull (pk : Nat) (score : Option Int) (status : ScoreStatus)
    (ts : Option Nat) (evidence : Option String) (error : Option String)
    (db : DB) : DB :=
  { db with scores := (upsertWith (fun r => r.passportPk == pk) (fun _ => ⟨pk, score, status, ts, evidence, error⟩) ⟨pk, score, status, ts, evidence, error⟩ db.scores) }

/-- `Score.objects.update_or_create(passport=passport, defaults=
dict(score=None, status=Score.Status.PROCESSING))` from
`process_deduplication`: only `score` and `status` are overwritten on an
existing row; a created row takes NULL for the unspecified nullable
fields. -/
def upsertScoreProcessing (pk : Nat) (db : DB) : DB :=
  { db with scores := (upsertWith (fun r => r.passportPk == pk) (fun r => { r with score := none, status := .PROCESSING }) ⟨pk, none, .PROCESSING, none, none, none⟩ db.scores) }

/-- Look up the (at most one) score row of a passport. -/
def getScore (db : DB) (pk : Nat) : Option ScoreRow :=
  db.scores.find? (fun r => r.passportPk == pk)

/-- The stamp rows of a passport. -/
def stampsFor (db : DB) (pk : Nat) : List StampRow :=
  db.stamps.filter (fun s => s.passportPk == pk)

/-! ## The claim primitive (`load_passport_record`) as atomic steps

Each of the four database operations of `load_passport_record` is one
indivisible storage operation; they are named separately so that the
concurrent interleaving semantics can reuse them. -/

/-- The single atomic conditional update:
`Passport.objects.filter(address=..., community_id=...)
.exclude(requires_calculation=False).update(requires_calculation=False)`,
returning the number of rows changed together with the new store. -/
def claimUpdate (cid : Nat) (addr : String) (db : DB) : Nat × DB :=
  let cond := fun p => keyMatch cid addr p && needsWorkRow p
  let n := (db.passports.filter cond).length
  (n, { db with passports :=
          db.passports.map (fun p =>
            if cond p then { p with requiresCalculation := some false } else p) })

/-- `Passport.objects.get(address=..., community_id=...)` (the row is
unique by constraint; the first match is returned). -/
def claimGet (cid : Nat) (addr : String) (db : DB) : Option PassportRow :=
  db.passports.find? (keyMatch cid addr)

/-- `Passport.objects.filter(address=..., community_id=...).exists()`. -/
def claimExists (cid : Nat) (addr : String) (db : DB) : Bool :=
  db.passports.any (keyMatch cid addr)

/-- `Passport.objects.update_or_create(address=..., community_id=...)`
with no defaults: return the existing row unchanged, or create one.
A created row takes the field default for `requires_calculation`;
modelled from the spec: a newly created passport starts in the unset
"needs work" state. -/
def claimCreate (cid : Nat) (addr : String) (db : DB) : PassportRow × DB :=
  match db.passports.find? (keyMatch cid addr) with
  | some p => (p, db)
  | none =>
      let row : PassportRow := ⟨db.nextPk, cid, pyLower addr, none⟩
      (row, { db with passports := db.passports ++ [row], nextPk := db.nextPk + 1 })

/-- `load_passport_record(community_id, address)`: the atomic conditional
update, then either the fetch of the claimed row (exactly one row
changed), or the existence check followed by the idempotent creation. -/
def load_passport_record (cid : Nat) (addr : String) (db : DB) :
    Option PassportRow × DB :=
  let (n, db1) := claimUpdate cid addr db
  if n == 1 then (claimGet cid addr db1, db1)
  else if claimExists cid addr db1 then (none, db1)
  else
    let (p, db2) := claimCreate cid addr db1
    (some p, db2)

/-! ## The pipeline -/

/-- `remove_existing_stamps_from_db(passport)`. -/
def remove_existing_stamps_from_db (passport : PassportRow) (db : DB) : DB :=
  { db with stamps := db.stamps.filter (fun s => !(s.passportPk == passport.pk)) }

/-- `load_passport_data(address)`: `get_passport` and the falsy check
raising `NoPassportException`. -/
def load_passport_data (env : Env) (address : String) : Except PyExc PassportData :=
  match env.getPassport address with
  | none => .error .noPassportException
  | some d => .ok d

/-- `calculate_score(passport, community_id)`: load the community (a miss
raises `DoesNotExist`), run the scorer (any failure of
`get_scorer`/`compute_score` is an exception), take `scores[0]` (an empty
result raises `IndexError`), and upsert the DONE score row. -/
def calculate_score (env : Env) (passport : PassportRow) (community_id : Nat)
    (db : DB) : Except PyExc Unit × DB :=
  match db.communities.find? (fun c => c.id == community_id) with
  | none => (.error (.genericException "Community matching query does not exist."), db)
  | some _ =>
      match env.computeScore passport.pk with
      | .error e => (.error e, db)
      | .ok scores =>
          match scores with
          | [] => (.error (.genericException "list index out of range"), db)
          | scoreData :: _ =>
              (.ok (), upsertScoreFull passport.pk (some scoreData.score) .DONE
                (some env.nowUtc) scoreData.evidence.head? none db)

/-- The re-scoring loop of `process_deduplication` under the FIFO rule:
for each affected passport, upsert a PROCESSING score row, then run
`calculate_score`; an exception stops the loop and propagates. -/
def rescoreAffected (env : Env) : List PassportRow → DB → Except PyExc Unit × DB
  | [], db => (.ok (), db)
  | p :: rest, db =>
      let db1 := upsertScoreProcessing p.pk db
      match calculate_score env p p.communityId db1 with
      | (.error e, db2) => (.error e, db2)
      | (.ok _, db2) => rescoreAffected env rest db2

/-- `process_deduplication(passport, passport_data)`: dispatch on
`passport.community.rule` through the rule map (an unknown rule raises
`Exception("Invalid rule")`), call the strategy, and under FIFO re-score
every affected passport. -/
def process_deduplication (env : Env) (passport : PassportRow)
    (passport_data : PassportData) (db : DB) : Except PyExc PassportData × DB :=
  match db.communities.find? (fun c => c.id == passport.communityId) with
  | none => (.error (.genericException "Passport has no community."), db)
  | some community =>
      if community.rule == "LIFO" then
        let (deduped, _) := env.lifo community passport_data passport.address
        (.ok deduped, db)
      else if community.rule == "FIFO" then
        let (deduped, affected) := env.fifo community passport_data passport.address
        match rescoreAffected env affected db with
        | (.error e, db1) => (.error e, db1)
        | (.ok _, db1) => (.ok deduped, db1)
      else (.error (.genericException "Invalid rule"), db)

/-- The per-credential loop of `validate_and_save_stamps`: verifier
errors, expiration parsing (a parse failure propagates `ValueError`),
expiry test (strict `<` against `datetime.now()`), issuer check, then the
keyed stamp upsert for accepted credentials; rejected ones are logged and
skipped. -/
def stampsLoop (env : Env) (did : String) (passport : PassportRow) :
    List StampData → DB → Except PyExc Unit × DB
  | [], db => (.ok (), db)
  | s :: rest, db =>
      let stampReturnErrors := env.validateCredential did s.credential
      match parse_expiration_date s.credential.expirationDate with
      | .error e => (.error e, db)
      | .ok expirationDate =>
          let isIssuerVerified := env.verifyIssuer s
          let stampIsExpired := PyDateTime.lt expirationDate env.nowLocal
          if stampReturnErrors.length == 0 && !stampIsExpired && isIssuerVerified then
            stampsLoop env did passport rest
              (upsertStamp s.credential.hash passport.pk s.provider s.credential db)
          else
            stampsLoop env did passport rest db

/-- `validate_and_save_stamps(passport, passport_data)`: deduplication,
DID resolution, then the per-credential loop. -/
def validate_and_save_stamps (env : Env) (passport : PassportRow)
    (passport_data : PassportData) (db : DB) : Except PyExc Unit × DB :=
  match process_deduplication env passport passport_data db with
  | (.error e, db1) => (.error e, db1)
  | (.ok deduped, db1) =>
      let did := env.getDid passport.address
      stampsLoop env did passport deduped.stamps db1

/-- The body of the `try` block of `score_passport` after a passport has
been returned by `load_passport_record`: delete existing stamps, fetch
the raw data, validate and save stamps, compute the score. -/
def score_passport_attempt (env : Env) (passport : PassportRow)
    (community_id : Nat) (address : String) (db : DB) : Except PyExc Unit × DB :=
  let db2 := remove_existing_stamps_from_db passport db
  match load_passport_data env address with
  | .error e => (.error e, db2)
  | .ok passport_data =>
      match validate_and_save_stamps env passport passport_data db2 with
      | (.error e, db3) => (.error e, db3)
      | (.ok _, db3) => calculate_score env passport community_id db3

/-- `score_passport(community_id, address)`: claim, early return when no
passport was obtained, otherwise run the pipeline; on any exception with
a claimed passport, upsert the ERROR score row with `e.detail` for an
`APIException` and `str(e)` otherwise; without a claimed passport the
exception is only logged. -/
def score_passport (env : Env) (community_id : Nat) (address : String)
    (db : DB) : DB :=
  match load_passport_record community_id address db with
  | (none, db1) => db1
  | (some passport, db1) =>
      match score_passport_attempt env passport community_id address db1 with
      | (.ok _, db2) => db2
      | (.error e, db2) =>
          upsertScoreFull passport.pk none .ERROR none none
            (some e.errorText) db2

/-- The celery task `score_passport_passport`, one of the two triggers. -/
def score_passport_passport (env : Env) (community_id : Nat) (address : String)
    (db : DB) : DB :=
  score_passport env community_id address db

/-- The celery task `score_registry_passport`, the other trigger. -/
def score_registry_passport (env : Env) (community_id : Nat) (address : String)
    (db : DB) : DB :=
  score_passport env community_id address db

/-! ## General lemmas about the table primitives -/

theorem map_id_of_mem {α : Type} (l : List α) (f : α → α) (h : ∀ x ∈ l, f x = x) :
    l.map f = l := by
  induction l with
  | nil => rfl
  | cons a l ih =>
      simp only [List.map_cons, h a (by simp)]
      rw [ih (fun x hx => h x (by simp [hx]))]

theorem find?_upsertWith_self {α : Type} (key : α → Bool) (upd : α → α) (new : α)
    (l : List α) (hnew : key new = true)
    (hupd : ∀ a, key a = true → key (upd a) = true) :
    (upsertWith key upd new l).find? key =
      match l.find? key with
      | none => some new
      | some a => some (upd a) := by
  induction l with
  | nil => simp [upsertWith, List.find?_cons_of_pos _ hnew]
  | cons x xs ih =>
      rw [upsertWith]
      by_cases hx : key x = true
      · rw [if_pos hx, List.find?_cons_of_pos _ (hupd x hx), List.find?_cons_of_pos _ hx]
      · rw [if_neg hx, List.find?_cons_of_neg _ hx, List.find?_cons_of_neg _ hx, ih]

theorem find?_upsertWith_other {α : Type} (key key2 : α → Bool) (upd : α → α)
    (new : α) (l : List α) (hnew : ¬key2 new = true)
    (hdisj : ∀ a, key a = true → ¬key2 a = true)
    (hupd : ∀ a, key a = true → ¬key2 (upd a) = true) :
    (upsertWith key upd new l).find? key2 = l.find? key2 := by
  induction l with
  | nil => simp [upsertWith, List.find?_cons_of_neg _ hnew]
  | cons x xs ih =>
      rw [upsertWith]
      by_cases hx : key x = true
      · rw [if_pos hx, List.find?_cons_of_neg _ (hupd x hx),
          List.find?_cons_of_neg _ (hdisj x hx)]
      · rw [if_neg hx]
        by_cases h2 : key2 x = true
        · rw [List.find?_cons_of_pos _ h2, List.find?_cons_of_pos _ h2]
        · rw [List.find?_cons_of_neg _ h2, List.find?_cons_of_neg _ h2, ih]

theorem getScore_upsertScoreFull_self (pk : Nat) (s : Option Int) (st : ScoreStatus)
    (ts : Option Nat) (ev : Option String) (er : Option String) (db : DB) :
    getScore (upsertScoreFull pk s st ts ev er db) pk = some ⟨pk, s, st, ts, ev, er⟩ := by
  unfold getScore upsertScoreFull
  dsimp only
  rw [find?_upsertWith_self (fun (r : ScoreRow) => r.passportPk == pk) _ _ _
    (by simp) (by simp)]
  cases db.scores.find? (fun r => r.passportPk == pk) <;> rfl

theorem getScore_upsertScoreFull_ne (pk pk' : Nat) (s : Option Int) (st : ScoreStatus)
    (ts : Option Nat) (ev : Option String) (er : Option String) (db : DB)
    (h : pk' ≠ pk) :
    getScore (upsertScoreFull pk s st ts ev er db) pk' = getScore db pk' := by
  unfold getScore upsertScoreFull
  dsimp only
  exact find?_upsertWith_other _ _ _ _ _ (by simp [Ne.symm h])
    (by intro a ha; simp at ha; simp [ha, Ne.symm h])
    (by intro a ha; simp [Ne.symm h])

theorem getScore_upsertScoreProcessing_self (pk : Nat) (db : DB) :
    ∃ r, getScore (upsertScoreProcessing pk db) pk = some r ∧
      r.passportPk = pk ∧ r.score = none ∧ r.status = .PROCESSING := by
  unfold getScore upsertScoreProcessing
  dsimp only
  rw [find?_upsertWith_self (fun (r : ScoreRow) => r.passportPk == pk) _ _ _
    (by simp) (by simp)]
  cases hf : db.scores.find? (fun r => r.passportPk == pk) with
  | none => exact ⟨_, rfl, rfl, rfl, rfl⟩
  | some a =>
      have := List.find?_some hf
      simp at this
      exact ⟨_, rfl, this, rfl, rfl⟩

theorem getScore_upsertScoreProcessing_ne (pk pk' : Nat) (db : DB) (h : pk' ≠ pk) :
    getScore (upsertScoreProcessing pk db) pk' = getScore db pk' := by
  unfold getScore upsertScoreProcessing
  dsimp only
  exact find?_upsertWith_other _ _ _ _ _ (by simp [Ne.symm h])
    (by intro a ha; simp at ha; simp [ha, Ne.symm h])
    (by intro a ha; simp at ha; simp [ha, Ne.symm h])

theorem stamps_upsertScoreFull (pk : Nat) (s : Option Int) (st : ScoreStatus)
    (ts : Option Nat) (ev : Option String) (er : Option String) (db : DB) :
    (upsertScoreFull pk s st ts ev er db).stamps = db.stamps := rfl

theorem stamps_upsertScoreProcessing (pk : Nat) (db : DB) :
    (upsertScoreProcessing pk db).stamps = db.stamps := rfl

theorem scores_upsertStamp (h : String) (pk : Nat) (prov : String) (cred : Credential)
    (db : DB) : (upsertStamp h pk prov cred db).scores = db.scores := rfl

/-! ## C2: claiming a missing passport -/

/-- A store with no passport rows at all. -/
def dbAbsent : DB := ⟨[], [], [], [], 0⟩

/-- C2 counterexample: when no Passport row exists for (1, "a"), the
claim states that `load_passport_record` creates the passport and
returns None; on the code the creation branch returns the newly created
passport object, which is not None. -/
theorem load_passport_record_absent_claim_false :
    ¬((load_passport_record 1 "a" dbAbsent).1 = none) := by decide

/-- C2 (amended): for every (community_id, address) with no Passport row,
the zero-row atomic update falls through to the existence check, the
passport is created by the idempotent upsert in the unset "needs work"
state (`requires_calculation` NULL, hence not claimed by the update), and
the call returns the newly created passport (not None). -/
theorem load_passport_record_absent_creates (cid : Nat) (addr : String) (db : DB)
    (habs : ∀ p ∈ db.passports, keyMatch cid addr p = false) :
    (load_passport_record cid addr db).1 = some ⟨db.nextPk, cid, pyLower addr, none⟩ ∧
    (load_passport_record cid addr db).2.passports =
      db.passports ++ [⟨db.nextPk, cid, pyLower addr, none⟩] := by
  have hcond : ∀ p ∈ db.passports, (keyMatch cid addr p && needsWorkRow p) = false :=
    fun p hp => by rw [habs p hp, Bool.false_and]
  have hfil : db.passports.filter (fun p => keyMatch cid addr p && needsWorkRow p) = [] :=
    List.filter_eq_nil_iff.mpr (fun a ha => by simp [hcond a ha])
  have hmap : db.passports.map (fun p =>
      if keyMatch cid addr p && needsWorkRow p then
        { p with requiresCalculation := some false } else p) = db.passports :=
    map_id_of_mem _ _ (fun x hx => by rw [hcond x hx]; simp)
  have hany : db.passports.any (keyMatch cid addr) = false :=
    List.any_eq_false.mpr (fun x hx => by simp [habs x hx])
  have hfind : db.passports.find? (keyMatch cid addr) = none :=
    List.find?_eq_none.mpr (fun x hx => by simp [habs x hx])
  unfold load_passport_record claimUpdate claimExists claimCreate
  dsimp only
  rw [hfil, hmap, hany, hfind]
  simp

/-- Witness for C2 (amended) at the concrete empty store. -/
theorem load_passport_record_absent_creates_witness :
    (load_passport_record 1 "a" dbAbsent).1 = some ⟨0, 1, "a", none⟩ ∧
    (load_passport_record 1 "a" dbAbsent).2.passports = [⟨0, 1, "a", none⟩] :=
  load_passport_record_absent_creates 1 "a" dbAbsent (by decide)

/-! ## C7: re-entry after DONE is a no-op -/

/-- C7: for a passport whose Score is DONE and whose
`requires_calculation` is false, running `score_passport` again is a
no-op: the claim update matches no row, the existence check short
circuits creation, the call returns None and the store is unchanged
(no Stamp or Score row is mutated). -/
theorem score_passport_requires_false_noop (env : Env) (cid : Nat) (addr : String)
    (db : DB)
    (hex : db.passports.any (keyMatch cid addr) = true)
    (hoff : ∀ p ∈ db.passports, keyMatch cid addr p = true →
      p.requiresCalculation = some false)
    (hdone : ∀ p ∈ db.passports, keyMatch cid addr p = true →
      (getScore db p.pk).map ScoreRow.status = some .DONE) :
    (load_passport_record cid addr db).1 = none ∧
    score_passport env cid addr db = db := by
  have hcond : ∀ p ∈ db.passports, (keyMatch cid addr p && needsWorkRow p) = false := by
    intro p hp
    by_cases hk : keyMatch cid addr p = true
    · rw [hk, Bool.true_and]
      unfold needsWorkRow
      rw [hoff p hp hk]
      rfl
    · rw [(by simpa using hk : keyMatch cid addr p = false), Bool.false_and]
  have hfil : db.passports.filter (fun p => keyMatch cid addr p && needsWorkRow p) = [] :=
    List.filter_eq_nil_iff.mpr (fun a ha => by simp [hcond a ha])
  have hmap : db.passports.map (fun p =>
      if keyMatch cid addr p && needsWorkRow p then
        { p with requiresCalculation := some false } else p) = db.passports :=
    map_id_of_mem _ _ (fun x hx => by rw [hcond x hx]; simp)
  have hload : load_passport_record cid addr db = (none, db) := by
    unfold load_passport_record claimUpdate claimExists
    dsimp only
    rw [hfil, hmap, hex]
    simp
  refine ⟨by rw [hload], ?_⟩
  unfold score_passport
  rw [hload]

/-- A store holding one DONE-scored passport with
`requires_calculation = false`. -/
def dbDone : DB :=
  ⟨[⟨1, 1, "a", some false⟩], [], [⟨1, some 5, .DONE, some 100, none, none⟩],
    [⟨1, "LIFO"⟩], 2⟩

/-- An environment whose collaborators are all inert. -/
def envIdle : Env :=
  { getPassport := fun _ => none
    getDid := fun a => a
    validateCredential := fun _ _ => []
    verifyIssuer := fun _ => true
    fifo := fun _ pd _ => (pd, [])
    lifo := fun _ pd _ => (pd, [])
    computeScore := fun _ => .ok []
    nowLocal := ⟨2023, 1, 1, 0, 0, 0, 0⟩
    nowUtc := 0 }

/-- Witness for C7 at a concrete DONE store. -/
theorem score_passport_requires_false_noop_witness :
    (load_passport_record 1 "a" dbDone).1 = none ∧
    score_passport envIdle 1 "a" dbDone = dbDone :=
  score_passport_requires_false_noop envIdle 1 "a" dbDone (by decide) (by decide)
    (by decide)

/-! ## C3, C8, C9: failure handling of a claimed run -/

theorem load_passport_record_frame (cid : Nat) (addr : String) (db : DB) :
    (load_passport_record cid addr db).2.scores = db.scores ∧
    (load_passport_record cid addr db).2.stamps = db.stamps ∧
    (load_passport_record cid addr db).2.communities = db.communities := by
  unfold load_passport_record claimUpdate claimExists claimCreate
  dsimp only
  split
  · exact ⟨rfl, rfl, rfl⟩
  · split
    · exact ⟨rfl, rfl, rfl⟩
    · split
      · exact ⟨rfl, rfl, rfl⟩
      · exact ⟨rfl, rfl, rfl⟩

theorem stampsFor_remove_self (p : PassportRow) (db : DB) :
    stampsFor (remove_existing_stamps_from_db p db) p.pk = [] := by
  unfold stampsFor remove_existing_stamps_from_db
  dsimp only
  rw [List.filter_filter]
  apply List.filter_eq_nil_iff.mpr
  intro a _
  simp

/-- C3: once a passport has been claimed (the claim returned non-null),
any exception raised by a later pipeline step is caught and persisted as
a Score row with status ERROR, score NULL, and the non-null error text
(`e.detail` for an APIException, `str(e)` otherwise); when no passport
was claimed, the run returns with the score and stamp tables untouched
and no Score row is created. -/
theorem score_passport_exception_handling (env : Env) (cid : Nat) (addr : String)
    (db : DB) :
    (∀ p db1 e db2,
        load_passport_record cid addr db = (some p, db1) →
        score_passport_attempt env p cid addr db1 = (.error e, db2) →
        getScore (score_passport env cid addr db) p.pk =
          some ⟨p.pk, none, .ERROR, none, none, some e.errorText⟩) ∧
    (∀ db1, load_passport_record cid addr db = (none, db1) →
        score_passport env cid addr db = db1 ∧
        db1.scores = db.scores ∧ db1.stamps = db.stamps) := by
  constructor
  · intro p db1 e db2 h1 h2
    simp only [score_passport, h1, h2]
    exact getScore_upsertScoreFull_self _ _ _ _ _ _ _
  · intro db1 h1
    have hframe := load_passport_record_frame cid addr db
    rw [h1] at hframe
    refine ⟨?_, hframe.1, hframe.2.1⟩
    simp only [score_passport, h1]

/-- A store with one claimable passport (`requires_calculation` NULL). -/
def dbNeedsWork : DB := ⟨[⟨1, 1, "a", none⟩], [], [], [⟨1, "LIFO"⟩], 2⟩

/-- `dbNeedsWork` after the atomic claim update flipped the flag. -/
def dbClaimed : DB := ⟨[⟨1, 1, "a", some false⟩], [], [], [⟨1, "LIFO"⟩], 2⟩

/-- Witness for C3 on a claimed run that fails with the no-data
condition. -/
theorem score_passport_exception_handling_witness :
    getScore (score_passport envIdle 1 "a" dbNeedsWork) 1 =
      some ⟨1, none, .ERROR, none, none,
        some "No Passport found for this address."⟩ :=
  (score_passport_exception_handling envIdle 1 "a" dbNeedsWork).1
    ⟨1, 1, "a", some false⟩ dbClaimed .noPassportException dbClaimed
    (by rfl) (by rfl)

/-- C8: the ERROR upsert written by the exception handlers is a full
replacement: even when the passport previously held a DONE score row
with non-null score, timestamp and evidence, a later failing claimed run
leaves the row with score NULL, last-score timestamp NULL, evidence NULL,
status ERROR, and the error text of the exception. -/
theorem score_passport_error_score_full_replacement (env : Env) (cid : Nat)
    (addr : String) (db : DB) (p : PassportRow) (db1 : DB) (e : PyExc) (db2 : DB)
    (r0 : ScoreRow)
    (h1 : load_passport_record cid addr db = (some p, db1))
    (h2 : score_passport_attempt env p cid addr db1 = (.error e, db2))
    (h3 : getScore db p.pk = some r0)
    (h4 : r0.status = .DONE) :
    getScore (score_passport env cid addr db) p.pk =
      some ⟨p.pk, none, .ERROR, none, none, some e.errorText⟩ := by
  simp only [score_passport, h1, h2]
  exact getScore_upsertScoreFull_self _ _ _ _ _ _ _

/-- A store whose passport already has a DONE score with non-null score,
timestamp and evidence, and is claimable again. -/
def dbDonePrior : DB :=
  ⟨[⟨1, 1, "a", none⟩], [], [⟨1, some 5, .DONE, some 100, some "ev", none⟩],
    [⟨1, "LIFO"⟩], 2⟩

/-- `dbDonePrior` after the atomic claim update flipped the flag. -/
def dbDonePriorClaimed : DB :=
  ⟨[⟨1, 1, "a", some false⟩], [], [⟨1, some 5, .DONE, some 100, some "ev", none⟩],
    [⟨1, "LIFO"⟩], 2⟩

/-- Witness for C8: the concrete prior DONE row loses its score value,
timestamp and evidence. -/
theorem score_passport_error_score_full_replacement_witness :
    getScore (score_passport envIdle 1 "a" dbDonePrior) 1 =
      some ⟨1, none, .ERROR, none, none,
        some "No Passport found for this address."⟩ :=
  score_passport_error_score_full_replacement envIdle 1 "a" dbDonePrior
    ⟨1, 1, "a", some false⟩ dbDonePriorClaimed .noPassportException
    dbDonePriorClaimed ⟨1, some 5, .DONE, some 100, some "ev", none⟩
    (by rfl) (by rfl) (by rfl) rfl

/-- A credential expiring in 2030, accepted by every check. -/
def credFut : Credential := ⟨"2030-01-01T00:00:00Z", "h1", "b"⟩

/-- An environment whose passport reader returns one valid credential but
whose scorer always raises, so the run fails after stamps were saved. -/
def envLateFail : Env :=
  { getPassport := fun _ => some ⟨[⟨"P", credFut⟩]⟩
    getDid := fun a => a
    validateCredential := fun _ _ => []
    verifyIssuer := fun _ => true
    fifo := fun _ pd _ => (pd, [])
    lifo := fun _ pd _ => (pd, [])
    computeScore := fun _ => .error (.genericException "scorer down")
    nowLocal := ⟨2023, 1, 1, 0, 0, 0, 0⟩
    nowUtc := 0 }

/-- A claimable passport that already holds one stamp from an earlier
run. -/
def dbPrior : DB :=
  ⟨[⟨1, 1, "a", none⟩],
    [⟨"old", 1, "OldP", ⟨"2029-01-01T00:00:00Z", "old", "x"⟩⟩], [],
    [⟨1, "LIFO"⟩], 2⟩

/-- C9 counterexample: the claim states that every claimed run failing at
or after the data fetch leaves the passport with zero persisted stamps.
Here a claimed run fails after the fetch (the scorer raises, after one
valid stamp was persisted): the passport ends with one stamp, not zero.
The prior stamp set ("old") was indeed destroyed, but the run-written
stamp survives the failure. -/
theorem score_passport_late_failure_keeps_stamps :
    stampsFor (score_passport envLateFail 1 "a" dbPrior) 1 =
      [⟨"h1", 1, "P", credFut⟩] ∧
    (getScore (score_passport envLateFail 1 "a" dbPrior) 1).map ScoreRow.status =
      some .ERROR := by decide

/-- C9 (amended): the passport's pre-existing stamps are unconditionally
deleted before the raw data is fetched; a claimed run that fails at the
data fetch itself (the no-data condition) therefore leaves the passport
with zero persisted stamps and an ERROR score row.  (A run failing later
keeps exactly the stamps it persisted before the failure; the prior set
is destroyed either way.) -/
theorem score_passport_nodata_zero_stamps (env : Env) (cid : Nat) (addr : String)
    (db : DB) (p : PassportRow) (db1 : DB)
    (h1 : load_passport_record cid addr db = (some p, db1))
    (h2 : env.getPassport addr = none) :
    stampsFor (score_passport env cid addr db) p.pk = [] ∧
    (getScore (score_passport env cid addr db) p.pk).map ScoreRow.status =
      some .ERROR := by
  have hattempt : score_passport_attempt env p cid addr db1 =
      (.error .noPassportException, remove_existing_stamps_from_db p db1) := by
    unfold score_passport_attempt load_passport_data
    rw [h2]
  constructor
  · simp only [score_passport, h1, hattempt]
    exact stampsFor_remove_self p db1
  · simp only [score_passport, h1, hattempt]
    rw [getScore_upsertScoreFull_self]
    rfl

/-- Witness for C9 (amended) on the concrete no-data run. -/
theorem score_passport_nodata_zero_stamps_witness :
    stampsFor (score_passport envIdle 1 "a" dbNeedsWork) 1 = [] ∧
    (getScore (score_passport envIdle 1 "a" dbNeedsWork) 1).map ScoreRow.status =
      some .ERROR :=
  score_passport_nodata_zero_stamps envIdle 1 "a" dbNeedsWork
    ⟨1, 1, "a", some false⟩ dbClaimed (by rfl) rfl

/-! ## C4, C5: per-credential validation -/

/-- A credential whose expiration string matches neither timestamp
format. -/
def credBad : Credential := ⟨"not-a-date", "hbad", "b"⟩

/-- An environment delivering first an unparseable credential and then a
valid one, with a working scorer. -/
def envBadDate : Env :=
  { getPassport := fun _ => some ⟨[⟨"PB", credBad⟩, ⟨"P", credFut⟩]⟩
    getDid := fun a => a
    validateCredential := fun _ _ => []
    verifyIssuer := fun _ => true
    fifo := fun _ pd _ => (pd, [])
    lifo := fun _ pd _ => (pd, [])
    computeScore := fun _ => .ok [⟨7, []⟩]
    nowLocal := ⟨2023, 1, 1, 0, 0, 0, 0⟩
    nowUtc := 0 }

/-- C4 counterexample: the claim states that a credential whose
expiration date parses in neither format is dropped on its own without
aborting the scoring of the remaining credentials.  On the code the
second `strptime` raises an uncaught `ValueError`: the run aborts, the
following valid credential is never persisted, and the run ends with an
ERROR score carrying the `ValueError` text. -/
theorem validate_unparseable_date_is_fatal :
    stampsFor (score_passport envBadDate 1 "a" dbNeedsWork) 1 = [] ∧
    getScore (score_passport envBadDate 1 "a" dbNeedsWork) 1 =
      some ⟨1, none, .ERROR, none, none,
        some "time data not-a-date does not match format %Y-%m-%dT%H:%M:%SZ"⟩ := by
  decide

/-- C4 (amended): a credential whose expiration date parses in neither
supported format raises `ValueError` out of the validation loop with the
store unchanged by that iteration: the credential is not persisted, no
later credential of the run is processed, and the exception propagates
to `score_passport` (which records it as the run's ERROR score). -/
theorem stampsLoop_parse_failure_aborts (env : Env) (did : String)
    (passport : PassportRow) (s : StampData) (rest : List StampData) (db : DB)
    (e : PyExc)
    (h : parse_expiration_date s.credential.expirationDate = .error e) :
    stampsLoop env did passport (s :: rest) db = (.error e, db) := by
  simp only [stampsLoop, h]

/-- Witness for C4 (amended) at the concrete unparseable credential. -/
theorem stampsLoop_parse_failure_aborts_witness :
    stampsLoop envIdle "did" ⟨1, 1, "a", some false⟩
        [⟨"PB", credBad⟩, ⟨"P", credFut⟩] dbClaimed =
      (.error (.valueError
        "time data not-a-date does not match format %Y-%m-%dT%H:%M:%SZ"),
        dbClaimed) :=
  stampsLoop_parse_failure_aborts envIdle "did" ⟨1, 1, "a", some false⟩
    ⟨"PB", credBad⟩ [⟨"P", credFut⟩] dbClaimed _ (by rfl)

/-- A credential whose expiration instant equals the clock reading of
`envNowEq` exactly. -/
def credNow : Credential := ⟨"2023-01-01T00:00:00Z", "h1", "b"⟩

/-- An environment whose local clock equals `credNow`'s expiration
instant. -/
def envNowEq : Env :=
  { getPassport := fun _ => some ⟨[⟨"P", credNow⟩]⟩
    getDid := fun a => a
    validateCredential := fun _ _ => []
    verifyIssuer := fun _ => true
    fifo := fun _ pd _ => (pd, [])
    lifo := fun _ pd _ => (pd, [])
    computeScore := fun _ => .ok [⟨7, []⟩]
    nowLocal := ⟨2023, 1, 1, 0, 0, 0, 0⟩
    nowUtc := 0 }

/-- C5 counterexample: the claim states that a credential whose
expiration instant equals the current time is treated as expired and not
persisted.  The code tests `stamp_expiration_date < datetime.now()`
strictly, so this credential is accepted and persisted. -/
theorem validate_expiry_at_now_accepted :
    (validate_and_save_stamps envNowEq ⟨1, 1, "a", some false⟩
        ⟨[⟨"P", credNow⟩]⟩ dbClaimed).2.stamps = [⟨"h1", 1, "P", credNow⟩] := by
  decide

/-- C5 (amended): a credential with a parseable expiration date is
rejected exactly when the verifier reported an error, or the expiration
instant is strictly before now, or the issuer is not verified; an
expiration instant equal to now is accepted and the stamp persisted. -/
theorem stampsLoop_reject_iff (env : Env) (did : String) (passport : PassportRow)
    (s : StampData) (db : DB) (exp : PyDateTime)
    (h : parse_expiration_date s.credential.expirationDate = .ok exp) :
    stampsLoop env did passport [s] db =
      (.ok (), if (env.validateCredential did s.credential).length == 0 &&
          !(PyDateTime.lt exp env.nowLocal) && env.verifyIssuer s then
        upsertStamp s.credential.hash passport.pk s.provider s.credential db
      else db) := by
  simp only [stampsLoop, h]
  split <;> simp [stampsLoop]

/-- Witness for C5 (amended): at the boundary credential the acceptance
condition holds and the stamp is persisted. -/
theorem stampsLoop_reject_iff_witness :
    stampsLoop envNowEq "did" ⟨1, 1, "a", some false⟩ [⟨"P", credNow⟩] dbClaimed =
      (.ok (), if ((envNowEq.validateCredential "did" credNow).length == 0 &&
          !(PyDateTime.lt ⟨2023, 1, 1, 0, 0, 0, 0⟩ envNowEq.nowLocal) &&
          envNowEq.verifyIssuer ⟨"P", credNow⟩) then
        upsertStamp "h1" 1 "P" credNow dbClaimed
      else dbClaimed) :=
  stampsLoop_reject_iff envNowEq "did" ⟨1, 1, "a", some false⟩ ⟨"P", credNow⟩
    dbClaimed ⟨2023, 1, 1, 0, 0, 0, 0⟩ (by rfl)

/-! ## C6: FIFO re-scoring of affected passports -/

theorem calculate_score_ok (env : Env) (p : PassportRow) (cid : Nat) (db : DB)
    (u : Unit) (db' : DB)
    (h : calculate_score env p cid db = (.ok u, db')) :
    (getScore db' p.pk).map ScoreRow.status = some .DONE ∧
    (∀ pk, pk ≠ p.pk → getScore db' pk = getScore db pk) ∧
    db'.stamps = db.stamps := by
  unfold calculate_score at h
  rcases hc : db.communities.find? (fun c => c.id == cid) with _ | c <;> rw [hc] at h
  · exact absurd h (by simp)
  · rcases he : env.computeScore p.pk with e | scores <;> rw [he] at h
    · exact absurd h (by simp)
    · rcases scores with _ | ⟨sd, rest⟩
      · exact absurd h (by simp)
      · have hdb : db' = upsertScoreFull p.pk (some sd.score) .DONE
            (some env.nowUtc) sd.evidence.head? none db := by
          have h2 := congrArg Prod.snd h
          simpa using h2.symm
        refine ⟨?_, ?_, ?_⟩
        · rw [hdb, getScore_upsertScoreFull_self]
          rfl
        · intro pk hpk
          rw [hdb, getScore_upsertScoreFull_ne _ _ _ _ _ _ _ _ hpk]
        · rw [hdb, stamps_upsertScoreFull]

theorem rescoreAffected_ok (env : Env) :
    ∀ (l : List PassportRow) (db db' : DB) (u : Unit),
      rescoreAffected env l db = (.ok u, db') →
      ((∀ p ∈ l, (getScore db' p.pk).map ScoreRow.status = some .DONE) ∧
       (∀ pk, (getScore db pk).map ScoreRow.status = some .DONE →
          (getScore db' pk).map ScoreRow.status = some .DONE) ∧
       db'.stamps = db.stamps) := by
  intro l
  induction l with
  | nil =>
      intro db db' u h
      have hdb : db' = db := by
        have h2 := congrArg Prod.snd h
        simpa [rescoreAffected] using h2.symm
      subst hdb
      exact ⟨by simp, fun pk hp => hp, rfl⟩
  | cons p rest ih =>
      intro db db' u h
      rcases hcs : calculate_score env p p.communityId (upsertScoreProcessing p.pk db)
        with ⟨res, db2⟩
      simp only [rescoreAffected, hcs] at h
      rcases res with e | v
      · exact absurd h (by simp)
      · obtain ⟨hl, hpres, hst⟩ := ih db2 db' u h
        have hdone2 := calculate_score_ok env p p.communityId _ v db2 hcs
        refine ⟨?_, ?_, ?_⟩
        · intro q hq
          rcases List.mem_cons.mp hq with hq' | hq'
          · rw [hq']
            exact hpres p.pk hdone2.1
          · exact hl q hq'
        · intro pk hpk
          apply hpres
          by_cases hpp : pk = p.pk
          · rw [hpp]
            exact hdone2.1
          · rw [hdone2.2.1 pk hpp, getScore_upsertScoreProcessing_ne p.pk pk db hpp]
            exact hpk
        · rw [hst, hdone2.2.2, stamps_upsertScoreProcessing]

/-- The current FIFO passport and an affected passport of the same
community. -/
def pA : PassportRow := ⟨1, 1, "a", some false⟩

/-- The FIFO-affected passport used by the C6 scenarios. -/
def pB : PassportRow := ⟨2, 1, "b", some false⟩

/-- A FIFO community store holding both passports. -/
def dbFifo : DB := ⟨[pA, pB], [], [], [⟨1, "FIFO"⟩], 3⟩

/-- A FIFO environment whose strategy reports `pB` as affected and whose
scorer raises exactly for `pB`. -/
def envFifoFail : Env :=
  { getPassport := fun _ => some ⟨[]⟩
    getDid := fun a => a
    validateCredential := fun _ _ => []
    verifyIssuer := fun _ => true
    fifo := fun _ pd _ => (pd, [⟨2, 1, "b", some false⟩])
    lifo := fun _ pd _ => (pd, [])
    computeScore := fun pk =>
      if pk == 2 then .error (.genericException "scorer down") else .ok [⟨7, []⟩]
    nowLocal := ⟨2023, 1, 1, 0, 0, 0, 0⟩
    nowUtc := 0 }

/-- C6 counterexample: the claim states an affected passport's Score ends
DONE or ERROR and is never left at PROCESSING.  When `calculate_score`
raises for the affected passport, `process_deduplication` has already
written the PROCESSING marker and the exception propagates to the
triggering run: the affected passport's Score stays PROCESSING. -/
theorem process_deduplication_leaves_processing :
    (getScore (process_deduplication envFifoFail pA ⟨[]⟩ dbFifo).2 2).map
        ScoreRow.status = some .PROCESSING ∧
    (process_deduplication envFifoFail pA ⟨[]⟩ dbFifo).1 =
      .error (.genericException "scorer down") :=
  ⟨by decide, rfl⟩

/-- C6 (amended): under FIFO, `process_deduplication` marks each affected
passport's Score PROCESSING and immediately runs the score-persist step
(`calculate_score`, not the full pipeline) for it; when that loop
completes without an exception every affected passport's Score ends
DONE, but an exception leaves the current affected passport at
PROCESSING and propagates.  Under LIFO the affected passports are not
rescored and the store is returned unchanged. -/
theorem process_deduplication_fifo_lifo :
    (∀ (env : Env) (l : List PassportRow) (db db' : DB) (u : Unit),
       rescoreAffected env l db = (.ok u, db') →
       ∀ p ∈ l, (getScore db' p.pk).map ScoreRow.status = some .DONE) ∧
    (∀ (env : Env) (passport : PassportRow) (pdata : PassportData) (db : DB)
       (c : CommunityRow),
       db.communities.find? (fun cr => cr.id == passport.communityId) = some c →
       c.rule = "LIFO" →
       process_deduplication env passport pdata db =
         (.ok (env.lifo c pdata passport.address).1, db)) := by
  constructor
  · intro env l db db' u h p hp
    exact (rescoreAffected_ok env l db db' u h).1 p hp
  · intro env passport pdata db c hfind hrule
    rcases hp : env.lifo c pdata passport.address with ⟨d, a⟩
    simp only [process_deduplication, hfind, hrule, hp]
    simp

/-- Like `envFifoFail` but with a scorer that always succeeds. -/
def envFifoOk : Env :=
  { getPassport := fun _ => some ⟨[]⟩
    getDid := fun a => a
    validateCredential := fun _ _ => []
    verifyIssuer := fun _ => true
    fifo := fun _ pd _ => (pd, [⟨2, 1, "b", some false⟩])
    lifo := fun _ pd _ => (pd, [])
    computeScore := fun _ => .ok [⟨7, []⟩]
    nowLocal := ⟨2023, 1, 1, 0, 0, 0, 0⟩
    nowUtc := 0 }

/-- The store after the successful FIFO re-score of `pB`. -/
def dbFifoRescored : DB :=
  ⟨[pA, pB], [], [⟨2, some 7, .DONE, some 0, none, none⟩], [⟨1, "FIFO"⟩], 3⟩

/-- Witness for C6 (amended) on a concrete successful rescore loop. -/
theorem process_deduplication_fifo_lifo_witness :
    (getScore dbFifoRescored 2).map ScoreRow.status = some .DONE :=
  process_deduplication_fifo_lifo.1 envFifoOk [pB] dbFifo dbFifoRescored ()
    (by rfl) pB (by simp)

/-! ## C10: stamps are upserted keyed by (hash, passport) -/

/-- The upsert key of a stamp row. -/
def stampKey (s : StampRow) : String × Nat := (s.hash, s.passportPk)

/-- No two stamp rows share a (hash, passport) key. -/

abbrev uniqueStampKeys (l : List StampRow) : Prop := (l.map stampKey).Nodup

theorem map_stampKey_upsertWith (h : String) (pk : Nat) (prov : String)
    (cred : Credential) (l : List StampRow) :
    (upsertWith (fun s => s.hash == h && s.passportPk == pk)
      (fun s => { s with provider := prov, credential := cred })
      ⟨h, pk, prov, cred⟩ l).map stampKey =
    if (h, pk) ∈ l.map stampKey then l.map stampKey
    else l.map stampKey ++ [(h, pk)] := by
  induction l with
  | nil => simp [upsertWith, stampKey]
  | cons x xs ih =>
      rw [upsertWith]
      by_cases hx : (x.hash == h && x.passportPk == pk) = true
      · have hk : stampKey x = (h, pk) := by
          simp only [Bool.and_eq_true, beq_iff_eq] at hx
          simp [stampKey, hx.1, hx.2]
        rw [if_pos hx, List.map_cons, List.map_cons]
        have hku : stampKey { x with provider := prov, credential := cred } =
            stampKey x := rfl
        rw [hku, hk, if_pos (by simp)]
      · have hk : ¬stampKey x = (h, pk) := by
          intro hc
          apply hx
          have h1 : x.hash = h := congrArg Prod.fst hc
          have h2 : x.passportPk = pk := congrArg Prod.snd hc
          simp [h1, h2]
        rw [if_neg hx, List.map_cons, List.map_cons, ih]
        by_cases hm : (h, pk) ∈ xs.map stampKey
        · rw [if_pos hm, if_pos (by simp [hm])]
        · rw [if_neg hm, if_neg (by
            simp only [List.mem_cons, not_or]
            exact ⟨fun hc => hk hc.symm, hm⟩), List.cons_append]

theorem uniqueStampKeys_upsertStamp (h : String) (pk : Nat) (prov : String)
    (cred : Credential) (db : DB) (hu : uniqueStampKeys db.stamps) :
    uniqueStampKeys (upsertStamp h pk prov cred db).stamps := by
  unfold upsertStamp uniqueStampKeys
  dsimp only
  rw [map_stampKey_upsertWith]
  split
  · exact hu
  · rename_i hm
    rw [List.nodup_append]
    exact ⟨hu, List.nodup_singleton _, by
      intro a ha hb
      simp only [List.mem_singleton] at hb
      exact hm (hb ▸ ha)⟩

theorem uniqueStampKeys_filter (p : StampRow → Bool) (l : List StampRow)
    (h : uniqueStampKeys l) : uniqueStampKeys (l.filter p) :=
  List.Nodup.sublist (List.Sublist.map stampKey (List.filter_sublist l)) h

theorem stamps_calculate_score (env : Env) (p : PassportRow) (cid : Nat) (db : DB) :
    (calculate_score env p cid db).2.stamps = db.stamps := by
  unfold calculate_score
  split
  · rfl
  · split
    · rfl
    · split
      · rfl
      · rfl

theorem stamps_rescoreAffected (env : Env) :
    ∀ (l : List PassportRow) (db : DB),
      (rescoreAffected env l db).2.stamps = db.stamps := by
  intro l
  induction l with
  | nil => intro db; rfl
  | cons p rest ih =>
      intro db
      rcases hcs : calculate_score env p p.communityId (upsertScoreProcessing p.pk db)
        with ⟨res, db2⟩
      have h2 : db2.stamps = db.stamps := by
        have h3 := stamps_calculate_score env p p.communityId
          (upsertScoreProcessing p.pk db)
        rw [hcs] at h3
        simpa [stamps_upsertScoreProcessing] using h3
      rcases res with e | v <;> simp [rescoreAffected, hcs, ih, h2]

theorem stamps_process_deduplication (env : Env) (passport : PassportRow)
    (pdata : PassportData) (db : DB) :
    (process_deduplication env passport pdata db).2.stamps = db.stamps := by
  unfold process_deduplication
  split
  · rfl
  · split
    · rfl
    · split
      · rename_i c heq hnl hf
        rcases hr : rescoreAffected env
          (env.fifo c pdata passport.address).2 db with ⟨res, db1⟩
        have h1 : db1.stamps = db.stamps := by
          have h2 := stamps_rescoreAffected env (env.fifo c pdata passport.address).2 db
          rw [hr] at h2
          exact h2
        rcases res with e | v <;> simp [hr, h1]
      · rfl

theorem uniqueStampKeys_stampsLoop (env : Env) (did : String) (p : PassportRow) :
    ∀ (creds : List StampData) (db : DB),
      uniqueStampKeys db.stamps →
      uniqueStampKeys (stampsLoop env did p creds db).2.stamps := by
  intro creds
  induction creds with
  | nil => intro db h; exact h
  | cons s rest ih =>
      intro db h
      cases hp : parse_expiration_date s.credential.expirationDate with
      | error e => simpa [stampsLoop, hp] using h
      | ok d =>
          simp only [stampsLoop, hp]
          split
          · exact ih _ (uniqueStampKeys_upsertStamp _ _ _ _ _ h)
          · exact ih _ h

theorem uniqueStampKeys_validate (env : Env) (p : PassportRow)
    (pdata : PassportData) (db : DB) (h : uniqueStampKeys db.stamps) :
    uniqueStampKeys (validate_and_save_stamps env p pdata db).2.stamps := by
  unfold validate_and_save_stamps
  rcases hd : process_deduplication env p pdata db with ⟨res, db1⟩
  have h1 : db1.stamps = db.stamps := by
    have h2 := stamps_process_deduplication env p pdata db
    rw [hd] at h2
    exact h2
  rcases res with e | ded
  · simpa using (h1 ▸ h : uniqueStampKeys db1.stamps)
  · exact uniqueStampKeys_stampsLoop env (env.getDid p.address) p ded.stamps db1
      (h1 ▸ h)

theorem uniqueStampKeys_attempt (env : Env) (p : PassportRow) (cid : Nat)
    (addr : String) (db : DB) (h : uniqueStampKeys db.stamps) :
    uniqueStampKeys (score_passport_attempt env p cid addr db).2.stamps := by
  unfold score_passport_attempt
  have hrm : uniqueStampKeys (remove_existing_stamps_from_db p db).stamps :=
    uniqueStampKeys_filter _ _ h
  cases load_passport_data env addr with
  | error e => simpa using hrm
  | ok pd =>
      rcases hv : validate_and_save_stamps env p pd
        (remove_existing_stamps_from_db p db) with ⟨res, db3⟩
      have h3 : uniqueStampKeys db3.stamps := by
        have h4 := uniqueStampKeys_validate env p pd
          (remove_existing_stamps_from_db p db) hrm
        rw [hv] at h4
        exact h4
      rcases res with e | u
      · simp only [hv]
        exact h3
      · simp only [hv]
        have h5 := stamps_calculate_score env p cid db3
        show uniqueStampKeys (calculate_score env p cid db3).2.stamps
        rw [h5]
        exact h3

theorem score_passport_unique_stamps (env : Env) (cid : Nat) (addr : String)
    (db : DB) (h : uniqueStampKeys db.stamps) :
    uniqueStampKeys (score_passport env cid addr db).stamps := by
  unfold score_passport
  rcases hl : load_passport_record cid addr db with ⟨po, db1⟩
  have h1 : db1.stamps = db.stamps := by
    have h2 := (load_passport_record_frame cid addr db).2.1
    rw [hl] at h2
    exact h2
  rcases po with _ | p
  · simp only [hl]
    exact (h1 ▸ h : uniqueStampKeys db1.stamps)
  · rcases ha : score_passport_attempt env p cid addr db1 with ⟨res, db2⟩
    have h2 : uniqueStampKeys db2.stamps := by
      have h3 := uniqueStampKeys_attempt env p cid addr db1 (h1 ▸ h)
      rw [ha] at h3
      exact h3
    rcases res with e | v
    · simp only [hl, ha]
      show uniqueStampKeys (upsertScoreFull _ _ _ _ _ _ db2).stamps
      rw [stamps_upsertScoreFull]
      exact h2
    · simp only [hl, ha]
      exact h2

/-- C10: every stamp write of a run goes through the upsert keyed by
(credential hash, passport), so a store in which no passport holds two
stamps with the same content hash keeps that invariant across any run of
`score_passport`; and when two valid credentials of one run carry the
same hash, the later one silently overwrites the earlier one's provider
and payload, leaving one stamp row for two credentials. -/
theorem stamp_upsert_keyed_by_hash_and_passport :
    (∀ (env : Env) (cid : Nat) (addr : String) (db : DB),
        uniqueStampKeys db.stamps →
        uniqueStampKeys (score_passport env cid addr db).stamps) ∧
    (stampsLoop envIdle "did" ⟨1, 1, "a", some false⟩
        [⟨"P1", ⟨"2030-01-01T00:00:00Z", "h1", "b1"⟩⟩,
         ⟨"P2", ⟨"2030-01-01T00:00:00Z", "h1", "b2"⟩⟩] dbClaimed).2.stamps =
      [⟨"h1", 1, "P2", ⟨"2030-01-01T00:00:00Z", "h1", "b2"⟩⟩] :=
  ⟨score_passport_unique_stamps, by decide⟩

/-- Witness for C10 on a concrete run that persists a stamp. -/
theorem stamp_upsert_keyed_by_hash_and_passport_witness :
    uniqueStampKeys (score_passport envNowEq 1 "a" dbNeedsWork).stamps :=
  stamp_upsert_keyed_by_hash_and_passport.1 envNowEq 1 "a" dbNeedsWork (by decide)

/-! ## C1: at most one concurrent claim wins

Each database operation of `load_passport_record` is a single atomic
storage operation, so a concurrent execution of N invocations for the
same key is an arbitrary interleaving of these atomic steps.  `InvPhase`
is the control state of one in-flight invocation, `stepInv` executes its
next atomic step, and a schedule (an arbitrary list of invocation
indices) drives the interleaving. -/

/-- The control state of one in-flight `load_passport_record` call:
before the atomic update; after it (holding the reported row count);
after the existence check of the zero-rows branch (holding its result);
returned (holding the returned passport or None). -/
inductive InvPhase where
  | start
  | updated (n : Nat)
  | checked (b : Bool)
  | done (res : Option PassportRow)
deriving DecidableEq, Repr

/-- Some row of the key still has `requires_calculation` not false. -/
def needsWork (cid : Nat) (addr : String) (db : DB) : Bool :=
  db.passports.any (fun p => keyMatch cid addr p && needsWorkRow p)

/-- One atomic step of one invocation, following the control flow of
`load_passport_record`: the conditional update; then either the fetch of
the claimed row (count = 1) or the existence check; then either the
"already owned" return of None or the creating upsert. -/
def stepInv (cid : Nat) (addr : String) (ph : InvPhase) (db : DB) : InvPhase × DB :=
  match ph with
  | .start => (.updated (claimUpdate cid addr db).1, (claimUpdate cid addr db).2)
  | .updated n =>
      if n == 1 then (.done (claimGet cid addr db), db)
      else (.checked (claimExists cid addr db), db)
  | .checked b =>
      if b then (.done none, db)
      else (.done (some (claimCreate cid addr db).1), (claimCreate cid addr db).2)
  | .done r => (.done r, db)

/-- Let invocation `i` perform its next atomic step. -/
def step1 (cid : Nat) (addr : String) (i : Nat) (s : List InvPhase × DB) :
    List InvPhase × DB :=
  match s.1[i]? with
  | none => s
  | some ph => ((s.1.set i (stepInv cid addr ph s.2).1), (stepInv cid addr ph s.2).2)

/-- Run an arbitrary interleaving: the schedule names, step by step,
which invocation performs its next atomic operation. -/
def runSched (cid : Nat) (addr : String) (sched : List Nat)
    (s : List InvPhase × DB) : List InvPhase × DB :=
  sched.foldl (fun t i => step1 cid addr i t) s

/-- An invocation that has observed a one-row update, or has already
returned a passport. -/
def winner : InvPhase → Bool
  | .updated n => n == 1
  | .done r => r.isSome
  | _ => false

/-- Any stored existence-check result is `true` (the row exists). -/
def checkedOk : InvPhase → Bool
  | .checked b => b
  | _ => true

/-- The invocation has returned a non-null passport. -/
def returnedSome : InvPhase → Bool
  | .done (some _) => true
  | _ => false

/-- The interleaving invariant: the key row exists, every stored
existence check saw it, at most one invocation is a winner, and while
the key still needs work nobody has won yet. -/
def ClaimInv (cid : Nat) (addr : String) (phases : List InvPhase) (db : DB) : Prop :=
  claimExists cid addr db = true ∧
  (∀ ph ∈ phases, checkedOk ph = true) ∧
  phases.countP winner ≤ 1 ∧
  (needsWork cid addr db = true → phases.countP winner = 0)

theorem countP_set_add {α : Type} (p : α → Bool) (l : List α) (i : Nat) (x y : α)
    (h : l[i]? = some x) :
    (l.set i y).countP p + (if p x then 1 else 0) =
      l.countP p + (if p y then 1 else 0) := by
  induction l generalizing i with
  | nil => simp at h
  | cons a as ih =>
      cases i with
      | zero =>
          rw [List.getElem?_cons_zero] at h
          injection h with h
          subst h
          simp only [List.set_cons_zero, List.countP_cons]
          omega
      | succ j =>
          rw [List.getElem?_cons_succ] at h
          simp only [List.set_cons_succ, List.countP_cons]
          have h2 := ih j h
          omega

theorem any_map_pointwise {α : Type} (l : List α) (f : α → α) (q : α → Bool)
    (h : ∀ a, q (f a) = q a) : (l.map f).any q = l.any q := by
  induction l with
  | nil => rfl
  | cons a as ih => simp [h, ih]

theorem claimUpdate_claimExists (cid : Nat) (addr : String) (db : DB) :
    claimExists cid addr (claimUpdate cid addr db).2 = claimExists cid addr db := by
  unfold claimUpdate claimExists
  dsimp only
  apply any_map_pointwise
  intro a
  by_cases hc : (keyMatch cid addr a && needsWorkRow a) = true
  · rw [if_pos hc]
    rfl
  · rw [if_neg hc]

theorem claimUpdate_needsWork (cid : Nat) (addr : String) (db : DB) :
    needsWork cid addr (claimUpdate cid addr db).2 = false := by
  unfold claimUpdate needsWork
  dsimp only
  rw [List.any_map]
  apply List.any_eq_false.mpr
  intro a _
  simp only [Function.comp]
  by_cases hc : (keyMatch cid addr a && needsWorkRow a) = true
  · rw [if_pos hc]
    simp [keyMatch, needsWorkRow]
  · rw [if_neg hc]
    simpa using hc

theorem claimUpdate_fst_zero (cid : Nat) (addr : String) (db : DB)
    (h : needsWork cid addr db = false) : (claimUpdate cid addr db).1 = 0 := by
  unfold claimUpdate
  dsimp only
  rw [List.length_eq_zero, List.filter_eq_nil_iff]
  intro a ha
  have h2 := List.any_eq_false.mp h a ha
  exact h2

theorem needsWork_of_claimUpdate_one (cid : Nat) (addr : String) (db : DB)
    (h : (claimUpdate cid addr db).1 = 1) : needsWork cid addr db = true := by
  by_contra hn
  rw [claimUpdate_fst_zero cid addr db (by simpa using hn)] at h
  exact absurd h (by simp)

theorem ClaimInv_step (cid : Nat) (addr : String) (i : Nat) (s : List InvPhase × DB)
    (hInv : ClaimInv cid addr s.1 s.2) :
    ClaimInv cid addr (step1 cid addr i s).1 (step1 cid addr i s).2 := by
  obtain ⟨phases, db⟩ := s
  obtain ⟨hE, hB, hC, hN⟩ := hInv
  dsimp only at hE hB hC hN
  unfold step1
  cases hget : phases[i]? with
  | none => exact ⟨hE, hB, hC, hN⟩
  | some ph =>
      dsimp only
      cases ph with
      | start =>
          have hstep : stepInv cid addr .start db =
              (.updated (claimUpdate cid addr db).1, (claimUpdate cid addr db).2) := rfl
          rw [hstep]
          dsimp only
          have hcount := countP_set_add winner phases i .start
            (.updated (claimUpdate cid addr db).1) hget
          rw [show winner .start = false from rfl] at hcount
          refine ⟨?_, ?_, ?_, ?_⟩
          · rw [claimUpdate_claimExists]
            exact hE
          · intro ph' hph'
            rcases List.mem_or_eq_of_mem_set hph' with hmem | heq
            · exact hB ph' hmem
            · rw [heq]
              rfl
          · by_cases hn : (claimUpdate cid addr db).1 = 1
            · have hnw := needsWork_of_claimUpdate_one cid addr db hn
              have h0 := hN hnw
              have hw2 : winner (.updated (claimUpdate cid addr db).1) = true := by
                simp only [winner, hn]
                rfl
              rw [hw2] at hcount
              simp at hcount
              omega
            · have hw2 : winner (.updated (claimUpdate cid addr db).1) = false := by
                simp only [winner]
                rw [beq_eq_false_iff_ne]
                exact hn
              rw [hw2] at hcount
              simp at hcount
              omega
          · intro hx
            rw [claimUpdate_needsWork] at hx
            exact absurd hx (by simp)
      | updated n =>
          by_cases hn : (n == 1) = true
          · have hstep : stepInv cid addr (.updated n) db =
                (.done (claimGet cid addr db), db) := by
              simp [stepInv, hn]
            rw [hstep]
            dsimp only
            have hcount := countP_set_add winner phases i (.updated n)
              (.done (claimGet cid addr db)) hget
            have hwin : winner (.updated n) = true := hn
            rw [hwin] at hcount
            refine ⟨hE, ?_, ?_, ?_⟩
            · intro ph' hph'
              rcases List.mem_or_eq_of_mem_set hph' with hmem | heq
              · exact hB ph' hmem
              · rw [heq]
                rfl
            · rcases hw : winner (.done (claimGet cid addr db)) <;> rw [hw] at hcount <;>
                simp at hcount <;> omega
            · intro hx
              have h0 := hN hx
              have hmem := List.getElem?_mem hget
              have hpos : 0 < phases.countP winner :=
                List.countP_pos_iff.mpr ⟨.updated n, hmem, hwin⟩
              omega
          · have hstep : stepInv cid addr (.updated n) db =
                (.checked (claimExists cid addr db), db) := by
              simp [stepInv, hn]
            rw [hstep]
            dsimp only
            have hcount := countP_set_add winner phases i (.updated n)
              (.checked (claimExists cid addr db)) hget
            have hwin : winner (.updated n) = false := by
              simp only [winner]
              simpa using hn
            rw [hwin, show winner (.checked (claimExists cid addr db)) = false
              from rfl] at hcount
            simp at hcount
            refine ⟨hE, ?_, ?_, ?_⟩
            · intro ph' hph'
              rcases List.mem_or_eq_of_mem_set hph' with hmem | heq
              · exact hB ph' hmem
              · rw [heq]
                show claimExists cid addr db = true
                exact hE
            · omega
            · intro hx
              have h0 := hN hx
              omega
      | checked b =>
          have hb : b = true := hB (.checked b) (List.getElem?_mem hget)
          have hstep : stepInv cid addr (.checked b) db = (.done none, db) := by
            simp [stepInv, hb]
          rw [hstep]
          dsimp only
          have hcount := countP_set_add winner phases i (.checked b) (.done none) hget
          rw [show winner (.checked b) = false from rfl,
            show winner (.done none) = false from rfl] at hcount
          simp at hcount
          refine ⟨hE, ?_, ?_, ?_⟩
          · intro ph' hph'
            rcases List.mem_or_eq_of_mem_set hph' with hmem | heq
            · exact hB ph' hmem
            · rw [heq]
              rfl
          · omega
          · intro hx
            have h0 := hN hx
            omega
      | done r =>
          have hstep : stepInv cid addr (.done r) db = (.done r, db) := rfl
          rw [hstep]
          dsimp only
          have hcount := countP_set_add winner phases i (.done r) (.done r) hget
          refine ⟨hE, ?_, ?_, ?_⟩
          · intro ph' hph'
            rcases List.mem_or_eq_of_mem_set hph' with hmem | heq
            · exact hB ph' hmem
            · rw [heq]
              exact hB (.done r) (List.getElem?_mem hget)
          · omega
          · intro hx
            have h0 := hN hx
            omega

theorem ClaimInv_runSched (cid : Nat) (addr : String) (sched : List Nat) :
    ∀ (s : List InvPhase × DB), ClaimInv cid addr s.1 s.2 →
      ClaimInv cid addr (runSched cid addr sched s).1 (runSched cid addr sched s).2 := by
  induction sched with
  | nil => intro s h; exact h
  | cons i rest ih =>
      intro s h
      unfold runSched
      rw [List.foldl_cons]
      exact ih (step1 cid addr i s) (ClaimInv_step cid addr i s h)

/-- C1: for every number N of concurrent invocations of
`load_passport_record` on the same (community_id, address) key whose
passport exists with `requires_calculation` true or unset, and every
interleaving of their atomic steps, at most one invocation returns a
non-null passport (so all others return None). -/
theorem claim_at_most_one (cid : Nat) (addr : String) (N : Nat) (sched : List Nat)
    (db : DB)
    (hex : db.passports.any (keyMatch cid addr) = true)
    (hneed : ∀ p ∈ db.passports, keyMatch cid addr p = true →
      p.requiresCalculation ≠ some false) :
    ((runSched cid addr sched (List.replicate N .start, db)).1.countP
      returnedSome) ≤ 1 := by
  have hInv0 : ClaimInv cid addr (List.replicate N .start) db := by
    refine ⟨hex, ?_, ?_, ?_⟩
    · intro ph hph
      rw [List.eq_of_mem_replicate hph]
      rfl
    · rw [List.countP_eq_zero.mpr]
      · omega
      · intro a ha
        rw [List.eq_of_mem_replicate ha]
        simp [winner]
    · intro _
      apply List.countP_eq_zero.mpr
      intro a ha
      rw [List.eq_of_mem_replicate ha]
      simp [winner]
  have hInv := ClaimInv_runSched cid addr sched (List.replicate N .start, db) hInv0
  have hmono : (runSched cid addr sched (List.replicate N .start, db)).1.countP
      returnedSome ≤ (runSched cid addr sched (List.replicate N .start, db)).1.countP
      winner := by
    apply List.countP_mono_left
    intro x _ hx
    cases x with
    | done r =>
        cases r with
        | none => exact absurd hx (by simp [returnedSome])
        | some p => rfl
    | start => exact absurd hx (by simp [returnedSome])
    | updated n => exact absurd hx (by simp [returnedSome])
    | checked b => exact absurd hx (by simp [returnedSome])
  exact le_trans hmono hInv.2.2.1

/-- Witness for C1: two racing invocations under a concrete schedule. -/
theorem claim_at_most_one_witness :
    ((runSched 1 "a" [0, 0, 1, 1, 0, 1]
      (List.replicate 2 .start, dbNeedsWork)).1.countP returnedSome) ≤ 1 :=
  claim_at_most_one 1 "a" 2 [0, 0, 1, 1, 0, 1] dbNeedsWork (by decide) (by decide)

/-- Under the concrete schedule of the witness, exactly one of the two
racing invocations returns a non-null passport. -/
theorem claim_exactly_one_for_witness_schedule :
    (runSched 1 "a" [0, 0, 1, 1, 0, 1]
      (List.replicate 2 InvPhase.start, dbNeedsWork)).1.countP returnedSome = 1 := by
  decide
